import Mathlib

/-!
# github-repo-crawler: pagination engines of `main.go`

A shallow embedding of the two traversal paths of `main.go`:

* `v3` (REST, page indexed), with its per-record name check;
* `loadOrgsv4`, `ReposForOrg` and `v4` (GraphQL, cursor indexed).

The transport clients (`github.Client`, `githubv4.Client`) are external
libraries.  They are embedded as state-passing functions over an arbitrary
state type `σ`: a call receives the current state of the transport and the
request, and gives back the answer and the next state.  Nothing is assumed
about a transport unless a theorem says so.

Every `for !stop` loop is unbounded in the source; its embedding takes a
fuel argument that bounds the number of iterations, and a run that uses up
its fuel ends with the outcome `Outcome.running`.

Go `int` values are embedded as `Int`: the counters only add slice lengths,
and no claim depends on wrap-around.
-/

namespace Crawler

/-! ## Outcomes, printed lines -/

/-- How a Go function call ended. -/
inductive Outcome (α : Type) where
  /-- the function returned the value -/
  | returned (a : α)
  /-- a Go run-time panic (nil dereference, index out of range) -/
  | panicked
  /-- the loop was still running when the fuel ran out -/
  | running
  deriving DecidableEq, Repr

/-- An argument handed to a `printf` call. -/
inductive Arg where
  | int (n : Int)
  | str (s : String)
  /-- a `*int64` argument (`r.ID`), possibly nil -/
  | ptr (p : Option Int)
  deriving DecidableEq, Repr

/-- One output call.  `logf pfx format args` is a call `printf(format, args...)`
of the closure made by `printGen(pfx)` (source lines 182-187), which hands
`"[pfx] format"` and `args` to `log.Printf`; `stdoutf` is a direct
`fmt.Printf`. -/
inductive Event where
  | logf (pfx : String) (format : String) (args : List Arg)
  | stdoutf (format : String) (args : List Arg)
  deriving DecidableEq, Repr

/-- `Config` (source lines 176-180). -/
structure Config where
  Token : String
  URL : String
  Org : String
  deriving DecidableEq, Repr

/-! ## REST path: `v3` -/

/-- The fields of `github.Repository` that `v3` reads; each is a pointer in
go-github and may be nil. -/
structure Repository where
  ID : Option Int
  FullName : Option String
  HTMLURL : Option String
  CloneURL : Option String
  deriving DecidableEq, Repr

/-- go-github `(*Repository).GetFullName`: `""` for a nil receiver or a nil
field.  A `*github.Repository` is an `Option Repository`. -/
def GetFullName (r : Option Repository) : String :=
  match r with
  | none => ""
  | some r => r.FullName.getD ""

/-- go-github `(*Repository).GetHTMLURL`. -/
def GetHTMLURL (r : Option Repository) : String :=
  match r with
  | none => ""
  | some r => r.HTMLURL.getD ""

/-- go-github `(*Repository).GetCloneURL`. -/
def GetCloneURL (r : Option Repository) : String :=
  match r with
  | none => ""
  | some r => r.CloneURL.getD ""

/-- Go `len(s)` of a string: its number of bytes.  The strings of this
program are decoded from JSON or given on the command line, hence text; the
bytes of a `String` are those of its UTF-8 encoding. -/
def len (s : String) : Int := (s.utf8ByteSize : Nat)

/-- Scan for `strings.Index`: `off` is the byte offset of the first
character of the remaining text.  In UTF-8 an occurrence of `sub` starts and
ends on character boundaries, so matching characters finds the same offset
as matching bytes. -/
def indexFrom (sub : List Char) : List Char → Nat → Int
  | [], off => if sub = [] then (off : Int) else -1
  | c :: cs, off =>
    if sub.isPrefixOf (c :: cs) then (off : Int)
    else indexFrom sub cs (off + c.utf8Size)

/-- Go `strings.Index(s, sub)`: the byte offset of the first occurrence of
`sub` in `s`, or `-1`. -/
def stringsIndex (s sub : String) : Int := indexFrom sub.data s.data 0

/-- The test of source line 108. -/
def splitInconsistent (name : String) : Bool :=
  decide (len name < stringsIndex name "/" + 1)

/-- The body of the `for _, r := range repos` loop of `v3` (source lines
104-110) for one record: the lines it prints.  Dereferencing `r.ID` on a nil
`r` (line 109) would panic; that is the `none` result. -/
def checkRepo (pfx : String) (r : Option Repository) : Option (List Event) :=
  let name := GetFullName r
  if name = "" then
    some [Event.logf pfx "Problem repo: %s %s\n" [Arg.str (GetHTMLURL r), Arg.str (GetCloneURL r)]]
  else if splitInconsistent name then
    match r with
    | none => none
    | some r' =>
      some [Event.logf pfx "Problem repo: %d %s %s %s\n"
        [Arg.ptr r'.ID, Arg.str (GetFullName r), Arg.str (GetHTMLURL r), Arg.str (GetCloneURL r)]]
  else some []

/-- The `range repos` loop of `v3` (source lines 103-111). -/
def checkRepos (pfx : String) : List (Option Repository) → Option (List Event)
  | [] => some []
  | r :: rs =>
    match checkRepo pfx r with
    | none => none
    | some out =>
      match checkRepos pfx rs with
      | none => none
      | some outs => some (out ++ outs)

/-- `github.ListOptions`. -/
structure ListOptions where
  Page : Int
  PerPage : Int
  deriving DecidableEq, Repr

/-- The part of `github.Response` that `v3` reads. -/
structure Response where
  NextPage : Int
  deriving DecidableEq, Repr

/-- What `Repositories.List` and `Repositories.ListByOrg` hand back:
`(repos, resp, err)`.  `resp` is a pointer and is nil (`none`) when the
request could not be sent; `err` is `none` for a nil error. -/
structure ListResult where
  repos : List (Option Repository)
  resp : Option Response
  err : Option String
  deriving DecidableEq, Repr

/-- A request issued by `v3`: which endpoint, and the options. -/
inductive Requestv3 where
  | list (user : String) (opts : ListOptions)
  | listByOrg (org : String) (opts : ListOptions)
  deriving DecidableEq, Repr

/-- The REST transport (`c.Repositories`), state-passing. -/
structure Clientv3 (σ : Type) where
  List : σ → String → ListOptions → ListResult × σ
  ListByOrg : σ → String → ListOptions → ListResult × σ

/-- A finished or interrupted run: how it ended, the state the transport
was left in, the requests issued and the lines printed, both in order. -/
structure Run (σ ρ α : Type) where
  outcome : Outcome α
  client : σ
  queries : List ρ
  out : List Event

/-- The prefix chosen at source lines 60-65.  `fmt.Sprintf("v3:%s:repos", org)`
is the concatenation. -/
def v3Tag (conf : Config) : String :=
  if conf.Org = "" then "v3:all:repos" else "v3:" ++ conf.Org ++ ":repos"

/-- The request of one iteration (source lines 76-90). -/
def v3Request (conf : Config) (next : Int) : Requestv3 :=
  if conf.Org ≠ "" then Requestv3.listByOrg conf.Org ⟨next, 100⟩
  else Requestv3.list "" ⟨next, 100⟩

/-- The call of one iteration (source lines 76-90). -/
def v3Call {σ : Type} (c : Clientv3 σ) (conf : Config) (s : σ) (next : Int) : ListResult × σ :=
  if conf.Org ≠ "" then c.ListByOrg s conf.Org ⟨next, 100⟩
  else c.List s "" ⟨next, 100⟩

/-- The lines printed by one iteration before `resp` is dereferenced
(source lines 92-99); `count` is already the updated total. -/
def v3PageLines (pfx : String) (err : Option String) (next count : Int) : List Event :=
  (match err with
    | some e => [Event.logf pfx "List failure: %s\n" [Arg.str e]]
    | none => []) ++
  [Event.logf pfx "Fetched 100\n" [],
   Event.logf pfx "Page %d\n" [Arg.int next],
   Event.logf pfx "Total %d\n" [Arg.int count]]

/-- The `for !stop` loop of `v3` (source lines 68-112).  The arguments after
the fuel are the transport state and the local variables `stop`, `next`,
`count`, followed by the requests issued and the lines printed so far. -/
def v3Loop {σ : Type} (c : Clientv3 σ) (conf : Config) :
    Nat → σ → Bool → Int → Int → List Requestv3 → List Event → Run σ Requestv3 Unit
  | 0, s, stop, _, _, qs, out =>
    if stop then ⟨Outcome.returned (), s, qs, out⟩ else ⟨Outcome.running, s, qs, out⟩
  | fuel + 1, s, stop, next, count, qs, out =>
    if stop then ⟨Outcome.returned (), s, qs, out⟩
    else
      let res := (v3Call c conf s next).1
      let s' := (v3Call c conf s next).2
      let qs' := qs ++ [v3Request conf next]
      let count' := count + (res.repos.length : Int)
      let out' := out ++ v3PageLines (v3Tag conf) res.err next count'
      match res.resp with
      | none => ⟨Outcome.panicked, s', qs', out'⟩
      | some resp =>
        match checkRepos (v3Tag conf) res.repos with
        | none => ⟨Outcome.panicked, s', qs', out'⟩
        | some lines => v3Loop c conf fuel s' stop resp.NextPage count' qs' (out' ++ lines)

/-- `v3` (source lines 50-113), for a client that was built: `stop := false`,
`next := 0`, `count := 0`, then the loop. -/
def v3 {σ : Type} (c : Clientv3 σ) (conf : Config) (fuel : Nat) (s : σ) : Run σ Requestv3 Unit :=
  v3Loop c conf fuel s false 0 0 [] []

/-! ## GraphQL path: `loadOrgsv4`, `ReposForOrg`, `v4` -/

/-- `Repo` (source lines 130-142). -/
structure Repo where
  Id : String
  DatabaseId : Int
  NameWithOwner : String
  Description : String
  Url : String
  IsPrivate : Bool
  IsFork : Bool
  IsArchived : Bool
  IsLocked : Bool
  IsDisabled : Bool
  ForkCount : Int
  deriving DecidableEq, Repr

/-- An element of `ReposByOrg.Organization.Repositories.Edges`
(source lines 120-125). -/
structure RepoEdge where
  Cursor : String
  Node : Repo
  deriving DecidableEq, Repr

/-- The field `Repositories` of `ReposByOrg.Organization`
(source lines 118-126).  `TotalCount` is a `githubv4.Int`. -/
structure Repositories where
  TotalCount : Int
  Edges : List RepoEdge
  deriving DecidableEq, Repr

/-- The field `Organization` of `ReposByOrg` (source lines 116-127). -/
structure OrganizationRepos where
  Login : String
  Repositories : Repositories
  deriving DecidableEq, Repr

/-- `ReposByOrg` (source lines 115-128). -/
structure ReposByOrg where
  Organization : OrganizationRepos
  deriving DecidableEq, Repr

/-- The node of an organization edge (source lines 165-170). -/
structure OrgNode where
  Id : String
  DatabaseId : Int
  Name : String
  Description : String
  deriving DecidableEq, Repr

/-- An element of `OrgsByViewer.Viewer.Organizations.Edges`
(source lines 163-171). -/
structure OrgEdge where
  Cursor : String
  Node : OrgNode
  deriving DecidableEq, Repr

/-- The field `Organizations` of `OrgsByViewer.Viewer`
(source lines 161-172). -/
structure Organizations where
  TotalCount : Int
  Edges : List OrgEdge
  deriving DecidableEq, Repr

/-- The field `Viewer` of `OrgsByViewer` (source lines 159-173). -/
structure ViewerOrgs where
  Login : String
  Organizations : Organizations
  deriving DecidableEq, Repr

/-- `OrgsByViewer` (source lines 158-174). -/
structure OrgsByViewer where
  Viewer : ViewerOrgs
  deriving DecidableEq, Repr

/-- A query issued through the GraphQL client, with its variables: the
organization listing carries `after`, the repository listing `login` and
`after`.  An absent cursor is the nil `*githubv4.String`. -/
inductive Requestv4 where
  | orgs (after : Option String)
  | repos (login : String) (after : Option String)
  deriving DecidableEq, Repr

/-- The answer to one `client.Query` call: the error, or the contents the
query struct holds after a nil error.  (The decoder of `githubv4` overwrites
every field of the query and rebuilds each slice from empty, so the struct
that the loops reuse holds exactly the last response.) -/
abbrev Answer (α : Type) := Except String α

deriving instance DecidableEq for Except

/-- The GraphQL transport, state-passing; `client.Query` is split by the
type of the query struct it is given. -/
structure Clientv4 (σ : Type) where
  QueryOrgs : σ → Option String → Answer OrgsByViewer × σ
  QueryRepos : σ → String → Option String → Answer ReposByOrg × σ

/-- The `for !stop` loop of `loadOrgsv4` (source lines 197-222).  The
arguments after the fuel are the transport state and the local variables
`stop`, `total`, `after`, `orgs`, followed by the queries issued and the
lines printed so far.  `Edges[size-1]` panics on an empty edge list. -/
def loadOrgsv4Loop {σ : Type} (client : Clientv4 σ) :
    Nat → σ → Bool → Int → Option String → List String → List Requestv4 → List Event →
      Run σ Requestv4 (List String)
  | 0, s, stop, _, _, orgs, qs, out =>
    if stop then ⟨Outcome.returned orgs, s, qs, out⟩ else ⟨Outcome.running, s, qs, out⟩
  | fuel + 1, s, stop, total, after, orgs, qs, out =>
    if stop then ⟨Outcome.returned orgs, s, qs, out⟩
    else
      let s' := (client.QueryOrgs s after).2
      let qs' := qs ++ [Requestv4.orgs after]
      match (client.QueryOrgs s after).1 with
      | Except.error e =>
        ⟨Outcome.returned orgs, s', qs',
          out ++ [Event.logf "v4:orgs" "failed to execute graphql query: %s\n" [Arg.str e]]⟩
      | Except.ok viewer =>
        let edges := viewer.Viewer.Organizations.Edges
        let size : Int := (edges.length : Int)
        let total' := total + size
        let out1 := out ++ [Event.logf "v4:orgs" "Fetched %d\n" [Arg.int size]]
        let orgs' := orgs ++ edges.map (fun o => o.Node.Name)
        match edges.getLast? with
        | none => ⟨Outcome.panicked, s', qs', out1⟩
        | some last =>
          let left := viewer.Viewer.Organizations.TotalCount - total'
          let stop' := if left = 0 then true else stop
          let out2 := out1 ++
            [Event.logf "v4:orgs" "Next Cursor: %s\n" [Arg.str last.Cursor],
             Event.logf "v4:orgs" "Total: %d\n" [Arg.int total'],
             Event.logf "v4:orgs" "Left: %d\n" [Arg.int left]]
          loadOrgsv4Loop client fuel s' stop' total' (some last.Cursor) orgs' qs' out2

/-- `loadOrgsv4` (source lines 189-225): `stop := false`, `total := 0`,
`after := nil`, `orgs := []string{}`, then the loop. -/
def loadOrgsv4 {σ : Type} (client : Clientv4 σ) (fuel : Nat) (s : σ) :
    Run σ Requestv4 (List String) :=
  loadOrgsv4Loop client fuel s false 0 none [] [] []

/-- The prefix of `ReposForOrg` (source line 248). -/
def reposTag (org : String) : String := "v4:org:" ++ org ++ ":repos"

/-- The `for !stop` loop of `ReposForOrg` (source lines 257-283).  A Go
`[]Repo` is an `Option (List Repo)`, `none` being the nil slice that the
error path returns.  `Edges[size-1]` panics on an empty edge list. -/
def ReposForOrgLoop {σ : Type} (client : Clientv4 σ) (org : String) :
    Nat → σ → Bool → Int → Option String → List Repo → List Requestv4 → List Event →
      Run σ Requestv4 (Option (List Repo))
  | 0, s, stop, _, _, repos, qs, out =>
    if stop then ⟨Outcome.returned (some repos), s, qs, out⟩ else ⟨Outcome.running, s, qs, out⟩
  | fuel + 1, s, stop, total, after, repos, qs, out =>
    if stop then ⟨Outcome.returned (some repos), s, qs, out⟩
    else
      let s' := (client.QueryRepos s org after).2
      let qs' := qs ++ [Requestv4.repos org after]
      match (client.QueryRepos s org after).1 with
      | Except.error e =>
        ⟨Outcome.returned none, s', qs',
          out ++ [Event.logf (reposTag org) "failed to execute graphql query: %s\n" [Arg.str e]]⟩
      | Except.ok orgViewer =>
        let edges := orgViewer.Organization.Repositories.Edges
        let size : Int := (edges.length : Int)
        let total' := total + size
        let out1 := out ++ [Event.logf (reposTag org) "Fetched %d\n" [Arg.int size]]
        let repos' := repos ++ edges.map (fun r => r.Node)
        match edges.getLast? with
        | none => ⟨Outcome.panicked, s', qs', out1⟩
        | some last =>
          let left := orgViewer.Organization.Repositories.TotalCount - total'
          let out2 := out1 ++
            [Event.logf (reposTag org) "Next Cursor: %s\n" [Arg.str last.Cursor],
             Event.logf (reposTag org) "Total: %d\n" [Arg.int total'],
             Event.logf (reposTag org) "Left: %d\n" [Arg.int left]]
          let stop' := if left = 0 then true else stop
          ReposForOrgLoop client org fuel s' stop' total' (some last.Cursor) repos' qs' out2

/-- `ReposForOrg` (source lines 247-286): `stop := false`, `total := 0`,
`after := nil`, `repos := make([]Repo, 0)`, then the loop. -/
def ReposForOrg {σ : Type} (client : Clientv4 σ) (org : String) (fuel : Nat) (s : σ) :
    Run σ Requestv4 (Option (List Repo)) :=
  ReposForOrgLoop client org fuel s false 0 none [] [] []

/-- The Go map `orgRepos` (`map[string][]Repo`): at most one entry per key. -/
abbrev OrgRepos := List (String × Option (List Repo))

/-- The assignment `m[k] = v`. -/
def mapSet (m : OrgRepos) (k : String) (v : Option (List Repo)) : OrgRepos :=
  (k, v) :: m.filter (fun e => e.1 ≠ k)

/-- The lookup `m[k]`, `none` when the key is absent. -/
def mapGet (m : OrgRepos) (k : String) : Option (Option (List Repo)) :=
  m.lookup k

/-- The `range orgs` loop of `v4` (source lines 241-244); every call of
`ReposForOrg` gets the same fuel.  A panic inside `ReposForOrg` ends the
process. -/
def v4Range {σ : Type} (client : Clientv4 σ) (fuel : Nat) :
    List String → σ → OrgRepos → List Requestv4 → List Event → Run σ Requestv4 OrgRepos
  | [], s, orgRepos, qs, out => ⟨Outcome.returned orgRepos, s, qs, out⟩
  | org :: rest, s, orgRepos, qs, out =>
    let out1 := out ++ [Event.stdoutf "----------- %s -----------" [Arg.str org]]
    let r := ReposForOrg client org fuel s
    match r.outcome with
    | Outcome.returned repos =>
      v4Range client fuel rest r.client (mapSet orgRepos org repos) (qs ++ r.queries) (out1 ++ r.out)
    | Outcome.panicked => ⟨Outcome.panicked, r.client, qs ++ r.queries, out1 ++ r.out⟩
    | Outcome.running => ⟨Outcome.running, r.client, qs ++ r.queries, out1 ++ r.out⟩

/-- `v4` (source lines 227-245), for a client that was built.  The source
drops `orgRepos` when it returns; the embedding hands it back so that the
accumulated map can be observed. -/
def v4 {σ : Type} (client : Clientv4 σ) (c : Config) (fuel : Nat) (s : σ) :
    Run σ Requestv4 OrgRepos :=
  if c.Org = "" then
    let r := loadOrgsv4 client fuel s
    match r.outcome with
    | Outcome.returned orgs => v4Range client fuel orgs r.client [] r.queries r.out
    | Outcome.panicked => ⟨Outcome.panicked, r.client, r.queries, r.out⟩
    | Outcome.running => ⟨Outcome.running, r.client, r.queries, r.out⟩
  else v4Range client fuel [c.Org] s [] [] []

/-! ### What a transport is assumed to answer -/

/-- The cursor that the query following the answer carries: the cursor of
the last edge of the page. -/
def repoCursor (r : ReposByOrg) : Option String :=
  r.Organization.Repositories.Edges.getLast?.map (fun e => e.Cursor)

/-- The cursor that the query following the answer carries. -/
def orgCursor (r : OrgsByViewer) : Option String :=
  r.Viewer.Organizations.Edges.getLast?.map (fun e => e.Cursor)

/-- `ServesRepos client org s after rs s1`: started in state `s`, the
transport answers a query for `org` carrying `after` with the first page of
`rs`, a query carrying the last cursor of a page with the page after it, and
is left in state `s1` after the last page of `rs`. -/
def ServesRepos {σ : Type} (client : Clientv4 σ) (org : String) :
    σ → Option String → List ReposByOrg → σ → Prop
  | s, _, [], s1 => s1 = s
  | s, after, r :: rs, s1 =>
    (client.QueryRepos s org after).1 = Except.ok r ∧
      ServesRepos client org (client.QueryRepos s org after).2 (repoCursor r) rs s1

/-- `ServesOrgs client s after rs s1`: the same for the organization
listing. -/
def ServesOrgs {σ : Type} (client : Clientv4 σ) :
    σ → Option String → List OrgsByViewer → σ → Prop
  | s, _, [], s1 => s1 = s
  | s, after, r :: rs, s1 =>
    (client.QueryOrgs s after).1 = Except.ok r ∧
      ServesOrgs client (client.QueryOrgs s after).2 (orgCursor r) rs s1

/-- The cursor carried by the query that follows the pages `rs`, when the
walk began with `after`. -/
def repoCursorAfter : Option String → List ReposByOrg → Option String
  | after, [] => after
  | _, r :: rs => repoCursorAfter (repoCursor r) rs

/-- The cursor carried by the query that follows the pages `rs`. -/
def orgCursorAfter : Option String → List OrgsByViewer → Option String
  | after, [] => after
  | _, r :: rs => orgCursorAfter (orgCursor r) rs

/-- The queries of a walk over the pages `rs` that began with `after`: one
query per page, each carrying the last cursor of the page before it. -/
def repoQueries (org : String) : Option String → List ReposByOrg → List Requestv4
  | _, [] => []
  | after, r :: rs => Requestv4.repos org after :: repoQueries org (repoCursor r) rs

/-- The queries of a walk over the organization pages `rs`. -/
def orgQueries : Option String → List OrgsByViewer → List Requestv4
  | _, [] => []
  | after, r :: rs => Requestv4.orgs after :: orgQueries (orgCursor r) rs

/-- The records of a sequence of repository pages, in order. -/
def repoRecords (rs : List ReposByOrg) : List Repo :=
  rs.flatMap (fun r => r.Organization.Repositories.Edges.map (fun e => e.Node))

/-- The organization names of a sequence of organization pages, in order. -/
def orgNames (rs : List OrgsByViewer) : List String :=
  rs.flatMap (fun r => r.Viewer.Organizations.Edges.map (fun e => e.Node.Name))

/-- No page of `rs` exhausts the count it reports: after each page, the
running total (which started at `total`) differs from that page's
`totalCount`. -/
def OrgsNotExhausted : Int → List OrgsByViewer → Prop
  | _, [] => True
  | total, r :: rs =>
    r.Viewer.Organizations.TotalCount - (total + r.Viewer.Organizations.Edges.length) ≠ 0 ∧
      OrgsNotExhausted (total + r.Viewer.Organizations.Edges.length) rs

/-- No page of `rs` exhausts the count it reports. -/
def ReposNotExhausted : Int → List ReposByOrg → Prop
  | _, [] => True
  | total, r :: rs =>
    r.Organization.Repositories.TotalCount - (total + r.Organization.Repositories.Edges.length) ≠ 0 ∧
      ReposNotExhausted (total + r.Organization.Repositories.Edges.length) rs

/-- The pages `rs` are a complete repository listing: at least one page,
no page without an edge, and every page reports as `totalCount` the number
of records of all the pages. -/
def CompleteRepos (rs : List ReposByOrg) : Prop :=
  rs ≠ [] ∧ (∀ r ∈ rs, r.Organization.Repositories.Edges ≠ []) ∧
    ∀ r ∈ rs, r.Organization.Repositories.TotalCount = ((repoRecords rs).length : Int)

/-- The pages `rs` are a complete organization listing. -/
def CompleteOrgs (rs : List OrgsByViewer) : Prop :=
  rs ≠ [] ∧ (∀ r ∈ rs, r.Viewer.Organizations.Edges ≠ []) ∧
    ∀ r ∈ rs, r.Viewer.Organizations.TotalCount = ((orgNames rs).length : Int)

/-- `ServesRepos` can be checked by running the transport. -/
instance decServesRepos {σ : Type} [DecidableEq σ] (client : Clientv4 σ) (org : String) :
    ∀ (s : σ) (after : Option String) (rs : List ReposByOrg) (s1 : σ),
      Decidable (ServesRepos client org s after rs s1)
  | s, _, [], s1 => inferInstanceAs (Decidable (s1 = s))
  | s, after, r :: rs, s1 =>
    have := decServesRepos client org (client.QueryRepos s org after).2 (repoCursor r) rs s1
    inferInstanceAs (Decidable ((client.QueryRepos s org after).1 = Except.ok r ∧
      ServesRepos client org (client.QueryRepos s org after).2 (repoCursor r) rs s1))

/-- `ServesOrgs` can be checked by running the transport. -/
instance decServesOrgs {σ : Type} [DecidableEq σ] (client : Clientv4 σ) :
    ∀ (s : σ) (after : Option String) (rs : List OrgsByViewer) (s1 : σ),
      Decidable (ServesOrgs client s after rs s1)
  | s, _, [], s1 => inferInstanceAs (Decidable (s1 = s))
  | s, after, r :: rs, s1 =>
    have := decServesOrgs client (client.QueryOrgs s after).2 (orgCursor r) rs s1
    inferInstanceAs (Decidable ((client.QueryOrgs s after).1 = Except.ok r ∧
      ServesOrgs client (client.QueryOrgs s after).2 (orgCursor r) rs s1))

/-- `ReposNotExhausted` is decidable. -/
instance decReposNotExhausted : ∀ (total : Int) (rs : List ReposByOrg),
    Decidable (ReposNotExhausted total rs)
  | _, [] => inferInstanceAs (Decidable True)
  | total, r :: rs =>
    have := decReposNotExhausted (total + r.Organization.Repositories.Edges.length) rs
    inferInstanceAs (Decidable
      (r.Organization.Repositories.TotalCount
          - (total + r.Organization.Repositories.Edges.length) ≠ 0 ∧
        ReposNotExhausted (total + r.Organization.Repositories.Edges.length) rs))

/-- `OrgsNotExhausted` is decidable. -/
instance decOrgsNotExhausted : ∀ (total : Int) (rs : List OrgsByViewer),
    Decidable (OrgsNotExhausted total rs)
  | _, [] => inferInstanceAs (Decidable True)
  | total, r :: rs =>
    have := decOrgsNotExhausted (total + r.Viewer.Organizations.Edges.length) rs
    inferInstanceAs (Decidable
      (r.Viewer.Organizations.TotalCount
          - (total + r.Viewer.Organizations.Edges.length) ≠ 0 ∧
        OrgsNotExhausted (total + r.Viewer.Organizations.Edges.length) rs))

/-- `CompleteRepos` is decidable. -/
instance decCompleteRepos (rs : List ReposByOrg) : Decidable (CompleteRepos rs) :=
  inferInstanceAs (Decidable (rs ≠ [] ∧ (∀ r ∈ rs, r.Organization.Repositories.Edges ≠ []) ∧
    ∀ r ∈ rs, r.Organization.Repositories.TotalCount = ((repoRecords rs).length : Int)))

/-- `CompleteOrgs` is decidable. -/
instance decCompleteOrgs (rs : List OrgsByViewer) : Decidable (CompleteOrgs rs) :=
  inferInstanceAs (Decidable (rs ≠ [] ∧ (∀ r ∈ rs, r.Viewer.Organizations.Edges ≠ []) ∧
    ∀ r ∈ rs, r.Viewer.Organizations.TotalCount = ((orgNames rs).length : Int)))

/-! ### Mock REST servers used by the concrete evaluations -/

/-- The `i`-th record of the mock servers: a well-formed `owner/name`. -/
def mockRepository (i : Nat) : Option Repository :=
  some ⟨some (i : Int), some ("acme/r" ++ String.mk (Nat.toDigits 10 i)),
    some "https://ghe.example/acme/r", some "https://ghe.example/acme/r.git"⟩

/-- The records `start, ..., start + size - 1`. -/
def mockPage (start size : Nat) : List (Option Repository) :=
  (List.range size).map (fun i => mockRepository (start + i))

/-- A server holding 250 repositories, served as pages of 100, 100 and 50
records; the third response reports next page 0.  A request for page 0 is
a request without a page number (go-github omits a zero `page`), which the
server answers with its first page. -/
def server250 : Clientv3 Unit where
  List := fun _ _ opts =>
    if opts.Page ≤ 1 then (⟨mockPage 0 100, some ⟨2⟩, none⟩, ())
    else if opts.Page = 2 then (⟨mockPage 100 100, some ⟨3⟩, none⟩, ())
    else if opts.Page = 3 then (⟨mockPage 200 50, some ⟨0⟩, none⟩, ())
    else (⟨[], some ⟨0⟩, none⟩, ())
  ListByOrg := fun _ _ _ => (⟨[], some ⟨0⟩, none⟩, ())

/-- A server whose only page is the given list of records. -/
def serverOf (repos : List (Option Repository)) : Clientv3 Unit where
  List := fun _ _ _ => (⟨repos, some ⟨0⟩, none⟩, ())
  ListByOrg := fun _ _ _ => (⟨repos, some ⟨0⟩, none⟩, ())

/-- A transport that cannot reach the server: go-github then hands back a
nil response together with the error. -/
def unreachableServer : Clientv3 Unit where
  List := fun _ _ _ => (⟨[], none, some "dial tcp: connection refused"⟩, ())
  ListByOrg := fun _ _ _ => (⟨[], none, some "dial tcp: connection refused"⟩, ())

/-- A configuration with an empty organization filter. -/
def allConf : Config := ⟨"token", "https://ghe.example", ""⟩

/-- A record whose full name has no separator. -/
def ownernameRepo : Option Repository :=
  some ⟨some 7, some "ownername", some "https://ghe.example/ownername",
    some "https://ghe.example/ownername.git"⟩

/-! ### Mock GraphQL servers used by the concrete evaluations -/

/-- The `i`-th repository record of organization `org` on the mock servers. -/
def mockRepo (org : String) (i : Nat) : Repo :=
  ⟨"R" ++ String.mk (Nat.toDigits 10 i), (i : Int), org ++ "/r" ++ String.mk (Nat.toDigits 10 i),
    "", "https://ghe.example/" ++ org, false, false, false, false, false, 0⟩

/-- The edge of the `i`-th record; its cursor is `"c"` followed by `i`. -/
def mockEdge (org : String) (i : Nat) : RepoEdge :=
  ⟨"c" ++ String.mk (Nat.toDigits 10 i), mockRepo org i⟩

/-- The edges of the records `start, ..., start + size - 1`. -/
def mockEdges (org : String) (start size : Nat) : List RepoEdge :=
  (List.range size).map (fun i => mockEdge org (start + i))

/-- A page of the repository listing of `org`. -/
def repoPage (org : String) (total : Int) (edges : List RepoEdge) : ReposByOrg :=
  ⟨⟨org, ⟨total, edges⟩⟩⟩

/-- The edge of the `i`-th organization; its cursor is `"o"` followed by `i`. -/
def mockOrgEdge (name : String) (i : Nat) : OrgEdge :=
  ⟨"o" ++ String.mk (Nat.toDigits 10 i), ⟨"O" ++ String.mk (Nat.toDigits 10 i), (i : Int), name, ""⟩⟩

/-- A page of the organization listing of the viewer. -/
def orgPage (total : Int) (edges : List OrgEdge) : OrgsByViewer :=
  ⟨⟨"viewer", ⟨total, edges⟩⟩⟩

/-- The scenario of the specification: the viewer belongs to `"acme"`, which
has 150 repositories served as pages of 100 and 50, and to `"beta"`, which
has none (`totalCount` 0 and no edge). -/
def acmeBetaServer : Clientv4 Unit where
  QueryOrgs := fun _ _ =>
    (Except.ok (orgPage 2 [mockOrgEdge "acme" 0, mockOrgEdge "beta" 1]), ())
  QueryRepos := fun _ login after =>
    if login = "acme" then
      if after = none then (Except.ok (repoPage "acme" 150 (mockEdges "acme" 0 100)), ())
      else if after = some "c99" then (Except.ok (repoPage "acme" 150 (mockEdges "acme" 100 50)), ())
      else (Except.error "invalid cursor", ())
    else if login = "beta" then (Except.ok (repoPage "beta" 0 []), ())
    else (Except.error "Could not resolve to an Organization", ())

/-- The two pages in which `abcServer` lists the repositories of `"a"`. -/
def pagesA : List ReposByOrg :=
  [repoPage "a" 3 (mockEdges "a" 0 2), repoPage "a" 3 (mockEdges "a" 2 1)]

/-- The page of `"b"` that `abcServer` serves before it fails. -/
def pagesB : List ReposByOrg := [repoPage "b" 3 (mockEdges "b" 0 2)]

/-- The page in which `abcServer` lists the repositories of `"c"`. -/
def pagesC : List ReposByOrg := [repoPage "c" 1 (mockEdges "c" 0 1)]

/-- The two pages in which `abcServer` lists the organizations. -/
def pagesOrgs : List OrgsByViewer :=
  [orgPage 3 [mockOrgEdge "a" 0, mockOrgEdge "b" 1], orgPage 3 [mockOrgEdge "c" 2]]

/-- A server with the organizations `"a"`, `"b"`, `"c"`, listed in two
pages.  The repositories of `"a"` come in two pages, those of `"c"` in one;
the listing of `"b"` fails on its second query.  The state counts the
queries answered. -/
def abcServer : Clientv4 Nat where
  QueryOrgs := fun n after =>
    if after = none then (Except.ok (orgPage 3 [mockOrgEdge "a" 0, mockOrgEdge "b" 1]), n + 1)
    else if after = some "o1" then (Except.ok (orgPage 3 [mockOrgEdge "c" 2]), n + 1)
    else (Except.error "invalid cursor", n + 1)
  QueryRepos := fun n login after =>
    if login = "a" then
      if after = none then (Except.ok (repoPage "a" 3 (mockEdges "a" 0 2)), n + 1)
      else if after = some "c1" then (Except.ok (repoPage "a" 3 (mockEdges "a" 2 1)), n + 1)
      else (Except.error "invalid cursor", n + 1)
    else if login = "b" then
      if after = none then (Except.ok (repoPage "b" 3 (mockEdges "b" 0 2)), n + 1)
      else (Except.error "502 Bad Gateway", n + 1)
    else if login = "c" then
      if after = none then (Except.ok (repoPage "c" 1 (mockEdges "c" 0 1)), n + 1)
      else (Except.error "invalid cursor", n + 1)
    else (Except.error "Could not resolve to an Organization", n + 1)

/-- A server with the organizations `"a"`, `"b"`, `"c"`, listed in one page.
`"a"` has one repository, the query for `"b"` fails, and `"c"` has no
repository: its query succeeds with `totalCount` 0 and no edge. -/
def abFailsCEmptyServer : Clientv4 Unit where
  QueryOrgs := fun _ _ =>
    (Except.ok (orgPage 3 [mockOrgEdge "a" 0, mockOrgEdge "b" 1, mockOrgEdge "c" 2]), ())
  QueryRepos := fun _ login _ =>
    if login = "a" then (Except.ok (repoPage "a" 1 (mockEdges "a" 0 1)), ())
    else if login = "b" then (Except.error "502 Bad Gateway", ())
    else if login = "c" then (Except.ok (repoPage "c" 0 []), ())
    else (Except.error "Could not resolve to an Organization", ())

/-- A server whose organization listing serves one page of two of its five
organizations and fails from the second query on. -/
def flakyOrgServer : Clientv4 Nat where
  QueryOrgs := fun n after =>
    if after = none then (Except.ok (orgPage 5 [mockOrgEdge "a" 0, mockOrgEdge "b" 1]), n + 1)
    else (Except.error "502 Bad Gateway", n + 1)
  QueryRepos := fun n _ _ => (Except.error "502 Bad Gateway", n + 1)


/-! ## Theorems: the REST path -/

/-- The separator, when found, lies inside the text: the byte offset that
`strings.Index` returns is below the length.  When it is not found the
result is `-1`. -/
theorem indexFrom_slash_le (l : List Char) (off : Nat) :
    indexFrom ['/'] l off + 1 ≤ (off : Int) + (String.utf8ByteSize.go l : Nat) := by
  induction l generalizing off with
  | nil => simp [indexFrom, String.utf8ByteSize.go]
  | cons c cs ih =>
    unfold indexFrom
    split
    · have := Char.utf8Size_pos c
      simp only [String.utf8ByteSize.go]
      omega
    · have := ih (off + c.utf8Size)
      simp only [String.utf8ByteSize.go]
      push_cast at this ⊢
      omega

/-- The test of source line 108 fails for every name. -/
theorem len_not_lt_index (name : String) : ¬ (len name < stringsIndex name "/" + 1) := by
  have h := indexFrom_slash_le name.data 0
  have e : name.utf8ByteSize = String.utf8ByteSize.go name.data := by
    cases name; rfl
  simp only [len, stringsIndex, not_lt, e]
  simpa using h

/-- The test of source line 108 as a Boolean. -/
theorem splitInconsistent_false (name : String) : splitInconsistent name = false := by
  simp only [splitInconsistent, decide_eq_false_iff_not]
  exact len_not_lt_index name

/-- What the record check prints is decided by the emptiness of the name. -/
theorem checkRepo_eq (pfx : String) (r : Option Repository) :
    checkRepo pfx r =
      if GetFullName r = "" then
        some [Event.logf pfx "Problem repo: %s %s\n"
          [Arg.str (GetHTMLURL r), Arg.str (GetCloneURL r)]]
      else some [] := by
  unfold checkRepo
  simp [splitInconsistent_false]

/-- The `range repos` loop never panics. -/
theorem checkRepos_isSome (pfx : String) (repos : List (Option Repository)) :
    ∃ lines, checkRepos pfx repos = some lines := by
  induction repos with
  | nil => exact ⟨[], rfl⟩
  | cons r rs ih =>
    obtain ⟨lines, hl⟩ := ih
    unfold checkRepos
    rw [checkRepo_eq, hl]
    by_cases h : GetFullName r = "" <;> simp [h]

/-- With `stop` false the loop of `v3` never returns: no transport, no
amount of fuel and no values of the locals make it end normally. -/
theorem v3Loop_not_returned {σ : Type} (c : Clientv3 σ) (conf : Config) :
    ∀ (fuel : Nat) (s : σ) (next count : Int) (qs : List Requestv3) (out : List Event),
      (v3Loop c conf fuel s false next count qs out).outcome ≠ Outcome.returned () := by
  intro fuel
  induction fuel with
  | zero => intro s next count qs out; simp [v3Loop]
  | succ fuel ih =>
    intro s next count qs out
    unfold v3Loop
    simp only [Bool.false_eq_true, if_false]
    split
    · simp
    · split
      · simp
      · exact ih _ _ _ _ _

/-- `v3` never returns. -/
theorem v3_not_returned {σ : Type} (c : Clientv3 σ) (conf : Config) (fuel : Nat) (s : σ) :
    (v3 c conf fuel s).outcome ≠ Outcome.returned () :=
  v3Loop_not_returned c conf fuel s 0 0 [] []

/-- On a transport that always hands back a response, every unit of fuel is
spent on one more request. -/
theorem v3Loop_running {σ : Type} (c : Clientv3 σ) (conf : Config)
    (hresp : ∀ s next, (v3Call c conf s next).1.resp ≠ none) :
    ∀ (fuel : Nat) (s : σ) (next count : Int) (qs : List Requestv3) (out : List Event),
      (v3Loop c conf fuel s false next count qs out).outcome = Outcome.running ∧
      (v3Loop c conf fuel s false next count qs out).queries.length = qs.length + fuel := by
  intro fuel
  induction fuel with
  | zero => intro s next count qs out; simp [v3Loop]
  | succ fuel ih =>
    intro s next count qs out
    unfold v3Loop
    simp only [Bool.false_eq_true, if_false]
    obtain ⟨lines, hl⟩ := checkRepos_isSome (v3Tag conf) (v3Call c conf s next).1.repos
    cases hr : (v3Call c conf s next).1.resp with
    | none => exact absurd hr (hresp s next)
    | some resp =>
      simp only [hl]
      have h := ih (v3Call c conf s next).2 resp.NextPage
        (count + ((v3Call c conf s next).1.repos.length : Int)) (qs ++ [v3Request conf next])
        (out ++ v3PageLines (v3Tag conf) (v3Call c conf s next).1.err next
          (count + ((v3Call c conf s next).1.repos.length : Int)) ++ lines)
      refine ⟨h.1, ?_⟩
      rw [h.2]
      simp
      omega

/-- A failed request that comes with a response does not end the loop: the
failure is printed and the next iteration asks for the page that the
response names. -/
theorem v3Loop_failure_with_response {σ : Type} (c : Clientv3 σ) (conf : Config)
    (fuel : Nat) (s : σ) (next count : Int) (qs : List Requestv3) (out : List Event)
    (e : String) (resp : Response)
    (herr : (v3Call c conf s next).1.err = some e)
    (hresp : (v3Call c conf s next).1.resp = some resp) :
    ∃ lines,
      v3Loop c conf (fuel + 1) s false next count qs out =
        v3Loop c conf fuel (v3Call c conf s next).2 false resp.NextPage
          (count + ((v3Call c conf s next).1.repos.length : Int)) (qs ++ [v3Request conf next])
          (out ++ [Event.logf (v3Tag conf) "List failure: %s\n" [Arg.str e],
              Event.logf (v3Tag conf) "Fetched 100\n" [],
              Event.logf (v3Tag conf) "Page %d\n" [Arg.int next],
              Event.logf (v3Tag conf) "Total %d\n"
                [Arg.int (count + ((v3Call c conf s next).1.repos.length : Int))]] ++ lines) := by
  obtain ⟨lines, hl⟩ := checkRepos_isSome (v3Tag conf) (v3Call c conf s next).1.repos
  refine ⟨lines, ?_⟩
  conv_lhs => unfold v3Loop
  simp [hresp, herr, hl, v3PageLines]

/-- A failed request that comes without a response ends `v3` in a panic
(`resp.NextPage` on a nil `resp`). -/
theorem v3Loop_failure_without_response {σ : Type} (c : Clientv3 σ) (conf : Config)
    (fuel : Nat) (s : σ) (next count : Int) (qs : List Requestv3) (out : List Event)
    (hresp : (v3Call c conf s next).1.resp = none) :
    (v3Loop c conf (fuel + 1) s false next count qs out).outcome = Outcome.panicked := by
  unfold v3Loop
  simp [hresp]

/-- C1 (the code departs from the claim): on the server that serves 250
repositories as pages of 100, 100 and 50 and reports next page 0 with the
third, `v3` does not stop after the third response.  After three iterations
the loop is still running, its last line being `Total 250`; the fourth
request asks for page 0 again and the total goes on to 350; and for every
amount of fuel the run spends all of it on requests and has not returned. -/
theorem v3_does_not_stop_at_next_page_zero :
    (v3 server250 allConf 3 ()).outcome = Outcome.running ∧
    (v3 server250 allConf 3 ()).out.getLast?
      = some (Event.logf "v3:all:repos" "Total %d\n" [Arg.int 250]) ∧
    (v3 server250 allConf 4 ()).queries
      = [Requestv3.list "" ⟨0, 100⟩, Requestv3.list "" ⟨2, 100⟩,
         Requestv3.list "" ⟨3, 100⟩, Requestv3.list "" ⟨0, 100⟩] ∧
    (v3 server250 allConf 4 ()).out.getLast?
      = some (Event.logf "v3:all:repos" "Total %d\n" [Arg.int 350]) ∧
    ∀ fuel : Nat, (v3 server250 allConf fuel ()).outcome = Outcome.running ∧
      (v3 server250 allConf fuel ()).queries.length = fuel := by
  refine ⟨by decide, by decide, by decide, by decide, ?_⟩
  intro fuel
  have hresp : ∀ (s : Unit) (next : Int), (v3Call server250 allConf s next).1.resp ≠ none := by
    intro s next
    simp only [v3Call, allConf, server250]
    split_ifs <;> simp
  have h := v3Loop_running server250 allConf hresp fuel () 0 0 [] []
  simpa [v3] using h

/-- C4 (the code departs from the claim): the record whose full name is
`"ownername"` is not reported.  `strings.Index` gives `-1`, the test of line
108 compares `9 < 0`, and the iteration that receives the record prints its
three page lines and nothing else. -/
theorem v3_ownername_not_reported :
    GetFullName ownernameRepo = "ownername" ∧
    stringsIndex "ownername" "/" = -1 ∧
    len "ownername" = 9 ∧
    checkRepo "v3:all:repos" ownernameRepo = some [] ∧
    (v3 (serverOf [ownernameRepo]) allConf 1 ()).out
      = [Event.logf "v3:all:repos" "Fetched 100\n" [],
         Event.logf "v3:all:repos" "Page %d\n" [Arg.int 0],
         Event.logf "v3:all:repos" "Total %d\n" [Arg.int 1]] := by
  refine ⟨by decide, by decide, by decide, by decide, by decide⟩

/-- C5 (the code departs from the claim): when the failed call hands back
no response, `v3` prints the failure and the page lines and then panics on
`resp.NextPage`; it issues one request and never a second, whatever the
fuel. -/
theorem v3_failure_without_response_aborts (fuel : Nat) :
    (v3 unreachableServer allConf (fuel + 1) ()).outcome = Outcome.panicked ∧
    (v3 unreachableServer allConf (fuel + 1) ()).queries = [Requestv3.list "" ⟨0, 100⟩] ∧
    (v3 unreachableServer allConf (fuel + 1) ()).out
      = [Event.logf "v3:all:repos" "List failure: %s\n" [Arg.str "dial tcp: connection refused"],
         Event.logf "v3:all:repos" "Fetched 100\n" [],
         Event.logf "v3:all:repos" "Page %d\n" [Arg.int 0],
         Event.logf "v3:all:repos" "Total %d\n" [Arg.int 0]] := by
  exact ⟨rfl, rfl, rfl⟩

/-- C9 (the code departs from the claim): the line that reports the fetched
count is the constant text `Fetched 100`, without argument.  A page of 50
records and a page of no record both print it, next to totals of 50 and 0. -/
theorem v3_fetched_line_is_constant :
    (mockPage 0 50).length = 50 ∧
    (v3 (serverOf (mockPage 0 50)) allConf 1 ()).out
      = [Event.logf "v3:all:repos" "Fetched 100\n" [],
         Event.logf "v3:all:repos" "Page %d\n" [Arg.int 0],
         Event.logf "v3:all:repos" "Total %d\n" [Arg.int 50]] ∧
    (v3 (serverOf []) allConf 1 ()).out
      = [Event.logf "v3:all:repos" "Fetched 100\n" [],
         Event.logf "v3:all:repos" "Page %d\n" [Arg.int 0],
         Event.logf "v3:all:repos" "Total %d\n" [Arg.int 0]] := by
  refine ⟨by decide, by decide, by decide⟩

/-- The `range repos` loop prints, record by record and in order, the
first-branch problem line of every record whose full name is empty, and
nothing for the other records. -/
theorem checkRepos_eq (pfx : String) (repos : List (Option Repository)) :
    checkRepos pfx repos =
      some (repos.flatMap (fun r =>
        if GetFullName r = "" then
          [Event.logf pfx "Problem repo: %s %s\n"
            [Arg.str (GetHTMLURL r), Arg.str (GetCloneURL r)]]
        else [])) := by
  induction repos with
  | nil => rfl
  | cons r rs ih =>
    unfold checkRepos
    rw [checkRepo_eq, ih]
    by_cases h : GetFullName r = "" <;> simp [h]

/-- C10: for every string `name` the test `len(name) < strings.Index(name, "/") + 1`
is false, so the second problem-repo branch is never taken and `v3` reports
a record as a problem repo exactly when its full name is empty.  In turn:
the test fails for every name; the record check prints the first-branch line
for an empty name and nothing otherwise; the `range repos` loop prints these
lines for the records of the page, in order; every iteration of the loop of
`v3`, on every transport and from every value of its locals, appends to the
output its page lines followed by exactly these lines for the page it
received (or panics on a nil response, before the records are looked at);
and `v3` itself, on a server whose page is `repos`, prints in its first
iteration the three page lines and then one problem line per record of
`repos` with an empty full name. -/
theorem v3_split_check_never_fires :
    (∀ name : String, ¬ (len name < stringsIndex name "/" + 1)) ∧
    (∀ (pfx : String) (r : Option Repository),
      checkRepo pfx r =
        if GetFullName r = "" then
          some [Event.logf pfx "Problem repo: %s %s\n"
            [Arg.str (GetHTMLURL r), Arg.str (GetCloneURL r)]]
        else some []) ∧
    (∀ (pfx : String) (repos : List (Option Repository)),
      checkRepos pfx repos =
        some (repos.flatMap (fun r =>
          if GetFullName r = "" then
            [Event.logf pfx "Problem repo: %s %s\n"
              [Arg.str (GetHTMLURL r), Arg.str (GetCloneURL r)]]
          else []))) ∧
    (∀ (σ : Type) (c : Clientv3 σ) (conf : Config) (fuel : Nat) (s : σ) (next count : Int)
        (qs : List Requestv3) (out : List Event),
      v3Loop c conf (fuel + 1) s false next count qs out =
        match (v3Call c conf s next).1.resp with
        | none =>
          ⟨Outcome.panicked, (v3Call c conf s next).2, qs ++ [v3Request conf next],
            out ++ v3PageLines (v3Tag conf) (v3Call c conf s next).1.err next
              (count + ((v3Call c conf s next).1.repos.length : Int))⟩
        | some resp =>
          v3Loop c conf fuel (v3Call c conf s next).2 false resp.NextPage
            (count + ((v3Call c conf s next).1.repos.length : Int))
            (qs ++ [v3Request conf next])
            (out ++ v3PageLines (v3Tag conf) (v3Call c conf s next).1.err next
                (count + ((v3Call c conf s next).1.repos.length : Int)) ++
              (v3Call c conf s next).1.repos.flatMap (fun r =>
                if GetFullName r = "" then
                  [Event.logf (v3Tag conf) "Problem repo: %s %s\n"
                    [Arg.str (GetHTMLURL r), Arg.str (GetCloneURL r)]]
                else []))) ∧
    (∀ repos : List (Option Repository),
      (v3 (serverOf repos) allConf 1 ()).out =
        [Event.logf "v3:all:repos" "Fetched 100\n" [],
         Event.logf "v3:all:repos" "Page %d\n" [Arg.int 0],
         Event.logf "v3:all:repos" "Total %d\n" [Arg.int (repos.length : Int)]] ++
        repos.flatMap (fun r =>
          if GetFullName r = "" then
            [Event.logf "v3:all:repos" "Problem repo: %s %s\n"
              [Arg.str (GetHTMLURL r), Arg.str (GetCloneURL r)]]
          else [])) := by
  refine ⟨len_not_lt_index, checkRepo_eq, checkRepos_eq, ?_, ?_⟩
  · intro σ c conf fuel s next count qs out
    conv_lhs => unfold v3Loop
    simp only [Bool.false_eq_true, if_false, checkRepos_eq]
  · intro repos
    have hcall : v3Call (serverOf repos) allConf () 0 = (⟨repos, some ⟨0⟩, none⟩, ()) := rfl
    have htag : v3Tag allConf = "v3:all:repos" := by decide
    unfold v3
    conv_lhs => unfold v3Loop
    simp only [Bool.false_eq_true, if_false, checkRepos_eq, hcall, htag, v3PageLines]
    simp [v3Loop]

/-! ## Theorems: the GraphQL path -/

/-- A non-empty list has a last element. -/
theorem getLast_of_ne_nil {α : Type} (l : List α) (h : l ≠ []) :
    ∃ last, l.getLast? = some last := by
  cases hl : l.getLast? with
  | none => exact absurd (List.getLast?_eq_none_iff.mp hl) h
  | some x => exact ⟨x, rfl⟩

/-- Once `stop` is set the loop of `ReposForOrg` returns what it holds. -/
theorem ReposForOrgLoop_stopped {σ : Type} (client : Clientv4 σ) (org : String) (fuel : Nat)
    (s : σ) (total : Int) (after : Option String) (repos : List Repo)
    (qs : List Requestv4) (out : List Event) :
    ReposForOrgLoop client org fuel s true total after repos qs out
      = ⟨Outcome.returned (some repos), s, qs, out⟩ := by
  cases fuel <;> simp [ReposForOrgLoop]

/-- The records of a first page followed by further pages. -/
theorem repoRecords_cons (r : ReposByOrg) (rs : List ReposByOrg) :
    repoRecords (r :: rs)
      = r.Organization.Repositories.Edges.map (fun e => e.Node) ++ repoRecords rs := by
  simp [repoRecords]

/-- Non-empty pages hold at least one record. -/
theorem repoRecords_pos (rs : List ReposByOrg) (hne : rs ≠ [])
    (hpages : ∀ r ∈ rs, r.Organization.Repositories.Edges ≠ []) :
    0 < (repoRecords rs).length := by
  cases rs with
  | nil => exact absurd rfl hne
  | cons r rs =>
    have h := hpages r (List.mem_cons_self _ _)
    have : 0 < r.Organization.Repositories.Edges.length := List.length_pos.mpr h
    simp [repoRecords_cons]
    omega

/-- The loop of `ReposForOrg` over a complete listing: from any values of
its locals, with `total` records already counted, it walks the pages `rs`,
appends their records and returns. -/
theorem ReposForOrgLoop_complete {σ : Type} (client : Clientv4 σ) (org : String) (N : Int) :
    ∀ (rs : List ReposByOrg) (fuel : Nat) (s : σ) (total : Int) (after : Option String)
      (repos : List Repo) (qs : List Requestv4) (out : List Event) (s1 : σ),
      rs ≠ [] →
      (∀ r ∈ rs, r.Organization.Repositories.Edges ≠ []) →
      (∀ r ∈ rs, r.Organization.Repositories.TotalCount = N) →
      total + ((repoRecords rs).length : Int) = N →
      ServesRepos client org s after rs s1 →
      rs.length ≤ fuel →
      (ReposForOrgLoop client org fuel s false total after repos qs out).outcome
          = Outcome.returned (some (repos ++ repoRecords rs)) ∧
      (ReposForOrgLoop client org fuel s false total after repos qs out).client = s1 ∧
      (ReposForOrgLoop client org fuel s false total after repos qs out).queries
          = qs ++ repoQueries org after rs := by
  intro rs
  induction rs with
  | nil => intro _ _ _ _ _ _ _ _ h; exact absurd rfl h
  | cons r rs ih =>
    intro fuel s total after repos qs out s1 _ hpages htotal hsum hserve hfuel
    obtain ⟨hq, hrest⟩ := hserve
    cases fuel with
    | zero => simp at hfuel
    | succ fuel =>
      obtain ⟨last, hlast⟩ := getLast_of_ne_nil _ (hpages r (List.mem_cons_self _ _))
      have hcur : repoCursor r = some last.Cursor := by simp [repoCursor, hlast]
      have hN := htotal r (List.mem_cons_self _ _)
      rw [repoRecords_cons] at hsum
      simp only [List.length_append, List.length_map] at hsum
      by_cases hnil : rs = []
      · subst hnil
        simp only [ServesRepos] at hrest
        have hleft : r.Organization.Repositories.TotalCount
            - (total + (r.Organization.Repositories.Edges.length : Int)) = 0 := by
          simp [repoRecords] at hsum
          omega
        simp [ReposForOrgLoop, hq, hlast, hleft, ReposForOrgLoop_stopped, repoRecords, repoQueries,
          hrest]
      · have hpos := repoRecords_pos rs hnil (fun x hx => hpages x (List.mem_cons_of_mem _ hx))
        have hleft : ¬ r.Organization.Repositories.TotalCount
            - (total + (r.Organization.Repositories.Edges.length : Int)) = 0 := by
          push_cast at hsum
          omega
        have hih := ih fuel (client.QueryRepos s org after).2
          (total + (r.Organization.Repositories.Edges.length : Int)) (some last.Cursor)
          (repos ++ r.Organization.Repositories.Edges.map (fun e => e.Node))
          (qs ++ [Requestv4.repos org after])
          (out ++ [Event.logf (reposTag org) "Fetched %d\n"
              [Arg.int (r.Organization.Repositories.Edges.length : Int)]] ++
            [Event.logf (reposTag org) "Next Cursor: %s\n" [Arg.str last.Cursor],
             Event.logf (reposTag org) "Total: %d\n"
               [Arg.int (total + (r.Organization.Repositories.Edges.length : Int))],
             Event.logf (reposTag org) "Left: %d\n"
               [Arg.int (r.Organization.Repositories.TotalCount
                 - (total + (r.Organization.Repositories.Edges.length : Int)))]])
          s1 hnil (fun x hx => hpages x (List.mem_cons_of_mem _ hx))
          (fun x hx => htotal x (List.mem_cons_of_mem _ hx))
          (by push_cast at hsum ⊢; omega) (hcur ▸ hrest) (by simpa using hfuel)
        simp only [ReposForOrgLoop, hq, hlast, hleft, if_false, Bool.false_eq_true]
        simpa [repoRecords_cons, repoQueries, hcur] using hih

/-- The loop of `ReposForOrg` when a query fails after the pages `rs`: the
failing query is the last one and the result is the nil slice. -/
theorem ReposForOrgLoop_fails {σ : Type} (client : Clientv4 σ) (org : String) (e : String) :
    ∀ (rs : List ReposByOrg) (fuel : Nat) (s : σ) (total : Int) (after : Option String)
      (repos : List Repo) (qs : List Requestv4) (out : List Event) (s1 : σ),
      (∀ r ∈ rs, r.Organization.Repositories.Edges ≠ []) →
      ReposNotExhausted total rs →
      ServesRepos client org s after rs s1 →
      (client.QueryRepos s1 org (repoCursorAfter after rs)).1 = Except.error e →
      rs.length + 1 ≤ fuel →
      (ReposForOrgLoop client org fuel s false total after repos qs out).outcome
          = Outcome.returned none ∧
      (ReposForOrgLoop client org fuel s false total after repos qs out).client
          = (client.QueryRepos s1 org (repoCursorAfter after rs)).2 ∧
      (ReposForOrgLoop client org fuel s false total after repos qs out).queries
          = qs ++ repoQueries org after rs ++ [Requestv4.repos org (repoCursorAfter after rs)] := by
  intro rs
  induction rs with
  | nil =>
    intro fuel s total after repos qs out s1 _ _ hserve herr hfuel
    simp only [ServesRepos] at hserve
    subst hserve
    simp only [repoCursorAfter] at herr ⊢
    cases fuel with
    | zero => simp at hfuel
    | succ fuel => simp [ReposForOrgLoop, herr, repoQueries]
  | cons r rs ih =>
    intro fuel s total after repos qs out s1 hpages hleft hserve herr hfuel
    obtain ⟨hq, hrest⟩ := hserve
    obtain ⟨hl, hlrest⟩ := hleft
    cases fuel with
    | zero => simp at hfuel
    | succ fuel =>
      obtain ⟨last, hlast⟩ := getLast_of_ne_nil _ (hpages r (List.mem_cons_self _ _))
      have hcur : repoCursor r = some last.Cursor := by simp [repoCursor, hlast]
      simp only [repoCursorAfter] at herr ⊢
      have hih := ih fuel (client.QueryRepos s org after).2
        (total + (r.Organization.Repositories.Edges.length : Int)) (some last.Cursor)
        (repos ++ r.Organization.Repositories.Edges.map (fun e => e.Node))
        (qs ++ [Requestv4.repos org after])
        (out ++ [Event.logf (reposTag org) "Fetched %d\n"
            [Arg.int (r.Organization.Repositories.Edges.length : Int)]] ++
          [Event.logf (reposTag org) "Next Cursor: %s\n" [Arg.str last.Cursor],
           Event.logf (reposTag org) "Total: %d\n"
             [Arg.int (total + (r.Organization.Repositories.Edges.length : Int))],
           Event.logf (reposTag org) "Left: %d\n"
             [Arg.int (r.Organization.Repositories.TotalCount
               - (total + (r.Organization.Repositories.Edges.length : Int)))]])
        s1 (fun x hx => hpages x (List.mem_cons_of_mem _ hx)) hlrest (hcur ▸ hrest)
        (hcur ▸ herr) (by simpa using hfuel)
      simp only [ReposForOrgLoop, hq, hlast, hl, if_false, Bool.false_eq_true]
      simpa [repoQueries, hcur] using hih

/-- A successful answer without any edge makes `ReposForOrg` panic on
`Edges[size-1]`, whatever `totalCount` it reports. -/
theorem ReposForOrg_empty_page_panics {σ : Type} (client : Clientv4 σ) (org : String)
    (fuel : Nat) (s : σ) (r : ReposByOrg)
    (hq : (client.QueryRepos s org none).1 = Except.ok r)
    (hempty : r.Organization.Repositories.Edges = []) :
    (ReposForOrg client org (fuel + 1) s).outcome = Outcome.panicked := by
  simp [ReposForOrg, ReposForOrgLoop, hq, hempty]

/-- Once `stop` is set the loop of `loadOrgsv4` returns what it holds. -/
theorem loadOrgsv4Loop_stopped {σ : Type} (client : Clientv4 σ) (fuel : Nat)
    (s : σ) (total : Int) (after : Option String) (orgs : List String)
    (qs : List Requestv4) (out : List Event) :
    loadOrgsv4Loop client fuel s true total after orgs qs out
      = ⟨Outcome.returned orgs, s, qs, out⟩ := by
  cases fuel <;> simp [loadOrgsv4Loop]

/-- The names of a first page followed by further pages. -/
theorem orgNames_cons (r : OrgsByViewer) (rs : List OrgsByViewer) :
    orgNames (r :: rs)
      = r.Viewer.Organizations.Edges.map (fun e => e.Node.Name) ++ orgNames rs := by
  simp [orgNames]

/-- Non-empty pages hold at least one name. -/
theorem orgNames_pos (rs : List OrgsByViewer) (hne : rs ≠ [])
    (hpages : ∀ r ∈ rs, r.Viewer.Organizations.Edges ≠ []) :
    0 < (orgNames rs).length := by
  cases rs with
  | nil => exact absurd rfl hne
  | cons r rs =>
    have h := hpages r (List.mem_cons_self _ _)
    have : 0 < r.Viewer.Organizations.Edges.length := List.length_pos.mpr h
    simp [orgNames_cons]
    omega

/-- The loop of `loadOrgsv4` over a complete listing. -/
theorem loadOrgsv4Loop_complete {σ : Type} (client : Clientv4 σ) (N : Int) :
    ∀ (rs : List OrgsByViewer) (fuel : Nat) (s : σ) (total : Int) (after : Option String)
      (orgs : List String) (qs : List Requestv4) (out : List Event) (s1 : σ),
      rs ≠ [] →
      (∀ r ∈ rs, r.Viewer.Organizations.Edges ≠ []) →
      (∀ r ∈ rs, r.Viewer.Organizations.TotalCount = N) →
      total + ((orgNames rs).length : Int) = N →
      ServesOrgs client s after rs s1 →
      rs.length ≤ fuel →
      (loadOrgsv4Loop client fuel s false total after orgs qs out).outcome
          = Outcome.returned (orgs ++ orgNames rs) ∧
      (loadOrgsv4Loop client fuel s false total after orgs qs out).client = s1 ∧
      (loadOrgsv4Loop client fuel s false total after orgs qs out).queries
          = qs ++ orgQueries after rs := by
  intro rs
  induction rs with
  | nil => intro _ _ _ _ _ _ _ _ h; exact absurd rfl h
  | cons r rs ih =>
    intro fuel s total after orgs qs out s1 _ hpages htotal hsum hserve hfuel
    obtain ⟨hq, hrest⟩ := hserve
    cases fuel with
    | zero => simp at hfuel
    | succ fuel =>
      obtain ⟨last, hlast⟩ := getLast_of_ne_nil _ (hpages r (List.mem_cons_self _ _))
      have hcur : orgCursor r = some last.Cursor := by simp [orgCursor, hlast]
      have hN := htotal r (List.mem_cons_self _ _)
      rw [orgNames_cons] at hsum
      simp only [List.length_append, List.length_map] at hsum
      by_cases hnil : rs = []
      · subst hnil
        simp only [ServesOrgs] at hrest
        have hleft : r.Viewer.Organizations.TotalCount
            - (total + (r.Viewer.Organizations.Edges.length : Int)) = 0 := by
          simp [orgNames] at hsum
          omega
        simp [loadOrgsv4Loop, hq, hlast, hleft, loadOrgsv4Loop_stopped, orgNames, orgQueries,
          hrest]
      · have hpos := orgNames_pos rs hnil (fun x hx => hpages x (List.mem_cons_of_mem _ hx))
        have hleft : ¬ r.Viewer.Organizations.TotalCount
            - (total + (r.Viewer.Organizations.Edges.length : Int)) = 0 := by
          push_cast at hsum
          omega
        have hih := ih fuel (client.QueryOrgs s after).2
          (total + (r.Viewer.Organizations.Edges.length : Int)) (some last.Cursor)
          (orgs ++ r.Viewer.Organizations.Edges.map (fun e => e.Node.Name))
          (qs ++ [Requestv4.orgs after])
          (out ++ [Event.logf "v4:orgs" "Fetched %d\n"
              [Arg.int (r.Viewer.Organizations.Edges.length : Int)]] ++
            [Event.logf "v4:orgs" "Next Cursor: %s\n" [Arg.str last.Cursor],
             Event.logf "v4:orgs" "Total: %d\n"
               [Arg.int (total + (r.Viewer.Organizations.Edges.length : Int))],
             Event.logf "v4:orgs" "Left: %d\n"
               [Arg.int (r.Viewer.Organizations.TotalCount
                 - (total + (r.Viewer.Organizations.Edges.length : Int)))]])
          s1 hnil (fun x hx => hpages x (List.mem_cons_of_mem _ hx))
          (fun x hx => htotal x (List.mem_cons_of_mem _ hx))
          (by push_cast at hsum ⊢; omega) (hcur ▸ hrest) (by simpa using hfuel)
        simp only [loadOrgsv4Loop, hq, hlast, hleft, if_false, Bool.false_eq_true]
        simpa [orgNames_cons, orgQueries, hcur] using hih

/-- The loop of `loadOrgsv4` when a query fails after the pages `rs`: the
failing query is the last one and the names gathered so far are returned. -/
theorem loadOrgsv4Loop_fails {σ : Type} (client : Clientv4 σ) (e : String) :
    ∀ (rs : List OrgsByViewer) (fuel : Nat) (s : σ) (total : Int) (after : Option String)
      (orgs : List String) (qs : List Requestv4) (out : List Event) (s1 : σ),
      (∀ r ∈ rs, r.Viewer.Organizations.Edges ≠ []) →
      OrgsNotExhausted total rs →
      ServesOrgs client s after rs s1 →
      (client.QueryOrgs s1 (orgCursorAfter after rs)).1 = Except.error e →
      rs.length + 1 ≤ fuel →
      (loadOrgsv4Loop client fuel s false total after orgs qs out).outcome
          = Outcome.returned (orgs ++ orgNames rs) ∧
      (loadOrgsv4Loop client fuel s false total after orgs qs out).client
          = (client.QueryOrgs s1 (orgCursorAfter after rs)).2 ∧
      (loadOrgsv4Loop client fuel s false total after orgs qs out).queries
          = qs ++ orgQueries after rs ++ [Requestv4.orgs (orgCursorAfter after rs)] := by
  intro rs
  induction rs with
  | nil =>
    intro fuel s total after orgs qs out s1 _ _ hserve herr hfuel
    simp only [ServesOrgs] at hserve
    subst hserve
    simp only [orgCursorAfter] at herr ⊢
    cases fuel with
    | zero => simp at hfuel
    | succ fuel => simp [loadOrgsv4Loop, herr, orgQueries, orgNames]
  | cons r rs ih =>
    intro fuel s total after orgs qs out s1 hpages hleft hserve herr hfuel
    obtain ⟨hq, hrest⟩ := hserve
    obtain ⟨hl, hlrest⟩ := hleft
    cases fuel with
    | zero => simp at hfuel
    | succ fuel =>
      obtain ⟨last, hlast⟩ := getLast_of_ne_nil _ (hpages r (List.mem_cons_self _ _))
      have hcur : orgCursor r = some last.Cursor := by simp [orgCursor, hlast]
      simp only [orgCursorAfter] at herr ⊢
      have hih := ih fuel (client.QueryOrgs s after).2
        (total + (r.Viewer.Organizations.Edges.length : Int)) (some last.Cursor)
        (orgs ++ r.Viewer.Organizations.Edges.map (fun e => e.Node.Name))
        (qs ++ [Requestv4.orgs after])
        (out ++ [Event.logf "v4:orgs" "Fetched %d\n"
            [Arg.int (r.Viewer.Organizations.Edges.length : Int)]] ++
          [Event.logf "v4:orgs" "Next Cursor: %s\n" [Arg.str last.Cursor],
           Event.logf "v4:orgs" "Total: %d\n"
             [Arg.int (total + (r.Viewer.Organizations.Edges.length : Int))],
           Event.logf "v4:orgs" "Left: %d\n"
             [Arg.int (r.Viewer.Organizations.TotalCount
               - (total + (r.Viewer.Organizations.Edges.length : Int)))]])
        s1 (fun x hx => hpages x (List.mem_cons_of_mem _ hx)) hlrest (hcur ▸ hrest)
        (hcur ▸ herr) (by simpa using hfuel)
      simp only [loadOrgsv4Loop, hq, hlast, hl, if_false, Bool.false_eq_true]
      simpa [orgNames_cons, orgQueries, hcur] using hih

/-- One query is issued per page of a walk. -/
theorem repoQueries_length (org : String) (rs : List ReposByOrg) :
    ∀ after : Option String, (repoQueries org after rs).length = rs.length := by
  induction rs with
  | nil => intro after; rfl
  | cons r rs ih => intro after; simp [repoQueries, ih]

/-- One query is issued per page of a walk. -/
theorem orgQueries_length (rs : List OrgsByViewer) :
    ∀ after : Option String, (orgQueries after rs).length = rs.length := by
  induction rs with
  | nil => intro after; rfl
  | cons r rs ih => intro after; simp [orgQueries, ih]

/-- Reading back the key just assigned. -/
theorem mapGet_mapSet_self (m : OrgRepos) (k : String) (v : Option (List Repo)) :
    mapGet (mapSet m k v) k = some v := by
  simp [mapGet, mapSet, List.lookup]

/-- Dropping the entries of another key does not change a lookup. -/
theorem lookup_filter_ne (m : OrgRepos) (k k1 : String) (h : k1 ≠ k) :
    List.lookup k1 (m.filter (fun e => e.1 ≠ k)) = List.lookup k1 m := by
  induction m with
  | nil => rfl
  | cons a m ih =>
    obtain ⟨a1, a2⟩ := a
    by_cases ha : a1 = k
    · subst ha
      have hb : (k1 == a1) = false := by simpa using h
      simp only [List.filter, ne_eq, not_true_eq_false, decide_False, List.lookup, hb]
      exact ih
    · simp only [List.filter, ha, ne_eq, not_false_eq_true, decide_True]
      by_cases hk : k1 = a1
      · subst hk; simp [List.lookup]
      · have hb : (k1 == a1) = false := by simpa using hk
        simp only [List.lookup, hb]
        exact ih

/-- An assignment leaves the other keys as they were. -/
theorem mapGet_mapSet_of_ne (m : OrgRepos) (k k1 : String) (v : Option (List Repo))
    (h : k1 ≠ k) : mapGet (mapSet m k v) k1 = mapGet m k1 := by
  have hb : (k1 == k) = false := by simpa using h
  simp only [mapGet, mapSet, List.lookup, hb]
  exact lookup_filter_ne m k k1 h

/-- One step of the fan-out when `ReposForOrg` returns. -/
theorem v4Range_cons_returned {σ : Type} (client : Clientv4 σ) (fuel : Nat) (org : String)
    (rest : List String) (s : σ) (m : OrgRepos) (qs : List Requestv4) (out : List Event)
    (repos : Option (List Repo))
    (h : (ReposForOrg client org fuel s).outcome = Outcome.returned repos) :
    v4Range client fuel (org :: rest) s m qs out
      = v4Range client fuel rest (ReposForOrg client org fuel s).client (mapSet m org repos)
          (qs ++ (ReposForOrg client org fuel s).queries)
          (out ++ [Event.stdoutf "----------- %s -----------" [Arg.str org]]
            ++ (ReposForOrg client org fuel s).out) := by
  conv_lhs => unfold v4Range
  simp only [h]

/-- A transport that answers by the cursor alone, whatever its state (the
first page to the query carrying `after`, to the last cursor of each page
the page after it), serves the pages of the walk from every state. -/
theorem ServesRepos_of_stateless {σ : Type} (client : Clientv4 σ) (org : String) :
    ∀ (rs : List ReposByOrg) (after : Option String) (s : σ),
      (∀ r ∈ rs.head?, ∀ t : σ, (client.QueryRepos t org after).1 = Except.ok r) →
      List.Chain'
        (fun r r1 => ∀ t : σ, (client.QueryRepos t org (repoCursor r)).1 = Except.ok r1) rs →
      ∃ s1, ServesRepos client org s after rs s1 := by
  intro rs
  induction rs with
  | nil => intro after s _ _; exact ⟨s, rfl⟩
  | cons r rs ih =>
    intro after s hhead hchain
    have h0 := hhead r (by simp) s
    obtain ⟨s1, hs1⟩ := ih (repoCursor r) (client.QueryRepos s org after).2
      (by
        intro r1 hr1 t
        cases rs with
        | nil => simp at hr1
        | cons x xs =>
          simp at hr1
          subst hr1
          exact (List.chain'_cons.mp hchain).1 t)
      (List.Chain'.tail hchain)
    exact ⟨s1, h0, hs1⟩

/-- C2 (the code departs from the claim): for the organization `"beta"`,
whose response carries `totalCount` 0 and no edge, `ReposForOrg` does not
return the empty list: it panics on `Edges[size-1]`.  The fan-out over
`"acme"` and `"beta"` therefore ends in a panic and not with a map, although
the 150 records of `"acme"` had been read in full. -/
theorem v4_empty_organization_panics :
    (∀ fuel : Nat, (ReposForOrg acmeBetaServer "beta" (fuel + 1) ()).outcome = Outcome.panicked) ∧
    (loadOrgsv4 acmeBetaServer 3 ()).outcome = Outcome.returned ["acme", "beta"] ∧
    (ReposForOrg acmeBetaServer "acme" 3 ()).outcome
      = Outcome.returned (some ((mockEdges "acme" 0 150).map (fun e => e.Node))) ∧
    (v4 acmeBetaServer allConf 3 ()).outcome = Outcome.panicked := by
  refine ⟨fun fuel => rfl, by decide, ?_, ?_⟩
  · set_option maxRecDepth 100000 in decide
  · set_option maxRecDepth 100000 in decide

/-- C3: for every non-empty list `recs` of records and every split of it
into consecutive non-empty pages `rs`, when the transport answers the first
query (absent cursor) with the first page and a query carrying the last
cursor of a page with the next page, every response reporting `totalCount`
equal to the length of `recs`, then `ReposForOrg`, given fuel for one
iteration per page, returns exactly `recs` after exactly one query per
page. -/
theorem ReposForOrg_returns_every_record_once {σ : Type} (client : Clientv4 σ) (org : String)
    (fuel : Nat) (s s1 : σ) (recs : List Repo) (rs : List ReposByOrg)
    (hrecs : recs ≠ [])
    (hsplit : repoRecords rs = recs)
    (hpages : ∀ r ∈ rs, r.Organization.Repositories.Edges ≠ [])
    (htotal : ∀ r ∈ rs, r.Organization.Repositories.TotalCount = (recs.length : Int))
    (hserve : ServesRepos client org s none rs s1)
    (hfuel : rs.length ≤ fuel) :
    (ReposForOrg client org fuel s).outcome = Outcome.returned (some recs) ∧
    (ReposForOrg client org fuel s).queries = repoQueries org none rs ∧
    (ReposForOrg client org fuel s).queries.length = rs.length := by
  have hne : rs ≠ [] := by
    intro h
    subst h
    exact hrecs (by simpa [repoRecords] using hsplit.symm)
  have h := ReposForOrgLoop_complete client org (recs.length : Int) rs fuel s 0 none [] [] [] s1
    hne hpages htotal (by simp [hsplit]) hserve hfuel
  simp only [List.nil_append, hsplit] at h
  refine ⟨h.1, h.2.2, ?_⟩
  rw [show (ReposForOrg client org fuel s).queries = repoQueries org none rs from h.2.2]
  exact repoQueries_length org rs none

/-- C3 at a concrete input: the three records of `"a"` on `abcServer`,
served as pages of two and one. -/
theorem ReposForOrg_returns_every_record_once_witness :
    (ReposForOrg abcServer "a" 2 0).outcome
      = Outcome.returned (some [mockRepo "a" 0, mockRepo "a" 1, mockRepo "a" 2]) ∧
    (ReposForOrg abcServer "a" 2 0).queries = repoQueries "a" none pagesA ∧
    (ReposForOrg abcServer "a" 2 0).queries.length = pagesA.length :=
  ReposForOrg_returns_every_record_once abcServer "a" 2 0 2
    [mockRepo "a" 0, mockRepo "a" 1, mockRepo "a" 2] pagesA
    (by decide) (by decide) (by decide) (by decide) (by decide) (by decide)

/-- Isolation of a failure when no listing is empty: in the fan-out of `v4`
over the organizations `[A, B, C]` with distinct names (listed by
`loadOrgsv4` from a complete organization listing), when the listings of `A`
and `C` are complete listings, every page holding at least one edge, and a
query for `B` fails, `ReposForOrg` is still run for `C` after the failing
query for `B`, and the accumulated map holds under `A` and under `C` their
complete record lists in server order (and the nil slice under `B`).  An
organization without repositories is outside these hypotheses. -/
theorem v4_failure_of_one_organization_is_isolated {σ : Type} (client : Clientv4 σ)
    (conf : Config) (fuel : Nat) (A B C e : String)
    (os : List OrgsByViewer) (rsA rsB rsC : List ReposByOrg) (s0 s1 s2 s3 s5 : σ)
    (hconf : conf.Org = "")
    (hAB : A ≠ B) (hAC : A ≠ C) (hBC : B ≠ C)
    (horgs : CompleteOrgs os) (hnames : orgNames os = [A, B, C])
    (hservO : ServesOrgs client s0 none os s1)
    (hA : CompleteRepos rsA) (hservA : ServesRepos client A s1 none rsA s2)
    (hBpages : ∀ r ∈ rsB, r.Organization.Repositories.Edges ≠ [])
    (hBleft : ReposNotExhausted 0 rsB)
    (hservB : ServesRepos client B s2 none rsB s3)
    (hfailB : (client.QueryRepos s3 B (repoCursorAfter none rsB)).1 = Except.error e)
    (hC : CompleteRepos rsC)
    (hservC : ServesRepos client C (client.QueryRepos s3 B (repoCursorAfter none rsB)).2
      none rsC s5)
    (hfuel : os.length ≤ fuel ∧ rsA.length ≤ fuel ∧ rsB.length + 1 ≤ fuel ∧ rsC.length ≤ fuel) :
    ∃ m : OrgRepos,
      (v4 client conf fuel s0).outcome = Outcome.returned m ∧
      mapGet m A = some (some (repoRecords rsA)) ∧
      mapGet m B = some none ∧
      mapGet m C = some (some (repoRecords rsC)) ∧
      (v4 client conf fuel s0).queries
        = orgQueries none os ++ repoQueries A none rsA
            ++ (repoQueries B none rsB ++ [Requestv4.repos B (repoCursorAfter none rsB)])
            ++ repoQueries C none rsC := by
  obtain ⟨hOne, hOpages, hOtotal⟩ := horgs
  obtain ⟨hAne, hApages, hAtotal⟩ := hA
  obtain ⟨hCne, hCpages, hCtotal⟩ := hC
  obtain ⟨hfO, hfA, hfB, hfC⟩ := hfuel
  have hO := loadOrgsv4Loop_complete client _ os fuel s0 0 none [] [] [] s1
    hOne hOpages hOtotal (by simp) hservO hfO
  have hRA := ReposForOrgLoop_complete client A _ rsA fuel s1 0 none [] [] [] s2
    hAne hApages hAtotal (by simp) hservA hfA
  have hRB := ReposForOrgLoop_fails client B e rsB fuel s2 0 none [] [] [] s3
    hBpages hBleft hservB hfailB hfB
  have hRC := ReposForOrgLoop_complete client C _ rsC fuel
    (client.QueryRepos s3 B (repoCursorAfter none rsB)).2 0 none [] [] [] s5
    hCne hCpages hCtotal (by simp) hservC hfC
  simp only [List.nil_append, hnames] at hO hRA hRB hRC
  obtain ⟨hO1, hO2, hO3⟩ := hO
  obtain ⟨hA1, hA2, hA3⟩ := hRA
  obtain ⟨hB1, hB2, hB3⟩ := hRB
  obtain ⟨hC1, hC2, hC3⟩ := hRC
  have hv : v4 client conf fuel s0
      = v4Range client fuel [A, B, C] s1 [] (orgQueries none os)
          (loadOrgsv4 client fuel s0).out := by
    unfold v4
    simp only [hconf, if_true]
    have e1 : (loadOrgsv4 client fuel s0).outcome = Outcome.returned [A, B, C] := hO1
    have e2 : (loadOrgsv4 client fuel s0).client = s1 := hO2
    have e3 : (loadOrgsv4 client fuel s0).queries = orgQueries none os := hO3
    simp only [e1, e2, e3]
  have eA1 : (ReposForOrg client A fuel s1).outcome
      = Outcome.returned (some (repoRecords rsA)) := hA1
  have eA2 : (ReposForOrg client A fuel s1).client = s2 := hA2
  have eA3 : (ReposForOrg client A fuel s1).queries = repoQueries A none rsA := hA3
  have eB1 : (ReposForOrg client B fuel s2).outcome = Outcome.returned none := hB1
  have eB2 : (ReposForOrg client B fuel s2).client
      = (client.QueryRepos s3 B (repoCursorAfter none rsB)).2 := hB2
  have eB3 : (ReposForOrg client B fuel s2).queries
      = repoQueries B none rsB ++ [Requestv4.repos B (repoCursorAfter none rsB)] := hB3
  have eC1 : (ReposForOrg client C fuel (client.QueryRepos s3 B (repoCursorAfter none rsB)).2).outcome
      = Outcome.returned (some (repoRecords rsC)) := hC1
  have eC3 : (ReposForOrg client C fuel (client.QueryRepos s3 B (repoCursorAfter none rsB)).2).queries
      = repoQueries C none rsC := hC3
  rw [hv, v4Range_cons_returned client fuel A _ s1 _ _ _ _ eA1, eA2, eA3,
    v4Range_cons_returned client fuel B _ s2 _ _ _ _ eB1, eB2, eB3,
    v4Range_cons_returned client fuel C _ _ _ _ _ _ eC1, eC3]
  refine ⟨mapSet (mapSet (mapSet [] A (some (repoRecords rsA))) B none) C
    (some (repoRecords rsC)), rfl, ?_, ?_, ?_, rfl⟩
  · rw [mapGet_mapSet_of_ne _ _ _ _ hAC, mapGet_mapSet_of_ne _ _ _ _ hAB, mapGet_mapSet_self]
  · rw [mapGet_mapSet_of_ne _ _ _ _ hBC, mapGet_mapSet_self]
  · rw [mapGet_mapSet_self]

/-- The isolation of a failure at a concrete input: `abcServer`, whose
listing of `"b"` fails on its second query. -/
theorem v4_failure_of_one_organization_is_isolated_witness :
    ∃ m : OrgRepos,
      (v4 abcServer allConf 3 0).outcome = Outcome.returned m ∧
      mapGet m "a" = some (some (repoRecords pagesA)) ∧
      mapGet m "b" = some none ∧
      mapGet m "c" = some (some (repoRecords pagesC)) ∧
      (v4 abcServer allConf 3 0).queries
        = orgQueries none pagesOrgs ++ repoQueries "a" none pagesA
            ++ (repoQueries "b" none pagesB ++ [Requestv4.repos "b" (repoCursorAfter none pagesB)])
            ++ repoQueries "c" none pagesC :=
  v4_failure_of_one_organization_is_isolated abcServer allConf 3 "a" "b" "c" "502 Bad Gateway"
    pagesOrgs pagesA pagesB pagesC 0 2 4 5 7
    rfl (by decide) (by decide) (by decide)
    (by decide) (by decide) (by decide)
    (by decide) (by decide)
    (by decide) (by decide) (by decide) rfl
    (by decide) (by decide)
    (by decide)

/-- C7: when the query that follows the successful pages `rs` of the
organization listing fails (every page of `rs` non-empty and none of them
exhausting the count it reports), `loadOrgsv4` returns, as an ordinary
list, the names of all edges of `rs` in server order, and the failing query
is its last one; with no page before the failure (`rs = []`, the first
query fails) the list is empty. -/
theorem loadOrgsv4_returns_partial_list_on_failure {σ : Type} (client : Clientv4 σ)
    (fuel : Nat) (s s1 : σ) (e : String) (rs : List OrgsByViewer)
    (hpages : ∀ r ∈ rs, r.Viewer.Organizations.Edges ≠ [])
    (hleft : OrgsNotExhausted 0 rs)
    (hserve : ServesOrgs client s none rs s1)
    (hfail : (client.QueryOrgs s1 (orgCursorAfter none rs)).1 = Except.error e)
    (hfuel : rs.length + 1 ≤ fuel) :
    (loadOrgsv4 client fuel s).outcome = Outcome.returned (orgNames rs) ∧
    (loadOrgsv4 client fuel s).queries
      = orgQueries none rs ++ [Requestv4.orgs (orgCursorAfter none rs)] ∧
    (loadOrgsv4 client fuel s).queries.length = rs.length + 1 ∧
    (rs = [] → (loadOrgsv4 client fuel s).outcome = Outcome.returned []) := by
  have h := loadOrgsv4Loop_fails client e rs fuel s 0 none [] [] [] s1
    hpages hleft hserve hfail hfuel
  simp only [List.nil_append] at h
  obtain ⟨h1, _, h3⟩ := h
  have e1 : (loadOrgsv4 client fuel s).outcome = Outcome.returned (orgNames rs) := h1
  have e3 : (loadOrgsv4 client fuel s).queries
      = orgQueries none rs ++ [Requestv4.orgs (orgCursorAfter none rs)] := h3
  refine ⟨e1, e3, ?_, ?_⟩
  · rw [e3]
    simp [orgQueries_length]
  · intro hnil
    rw [e1, hnil]
    rfl

/-- C7 at a concrete input: `flakyOrgServer` serves one page of two names
and fails on the second query. -/
theorem loadOrgsv4_returns_partial_list_on_failure_witness :
    (loadOrgsv4 flakyOrgServer 5 0).outcome = Outcome.returned ["a", "b"] ∧
    (loadOrgsv4 flakyOrgServer 5 0).queries
      = [Requestv4.orgs none, Requestv4.orgs (some "o1")] := by
  have h := loadOrgsv4_returns_partial_list_on_failure flakyOrgServer 5 0 1 "502 Bad Gateway"
    [orgPage 5 [mockOrgEdge "a" 0, mockOrgEdge "b" 1]]
    (by decide) (by decide) (by decide) rfl (by decide)
  exact ⟨h.1, h.2.1⟩

/-- C8: when the query that follows the successful pages `rs` of a
repository listing fails (`rs` may be empty: the first query fails),
`ReposForOrg` issues no further query and returns the nil slice, which holds
none of the records of `rs`. -/
theorem ReposForOrg_returns_nil_on_failure {σ : Type} (client : Clientv4 σ) (org : String)
    (fuel : Nat) (s s1 : σ) (e : String) (rs : List ReposByOrg)
    (hpages : ∀ r ∈ rs, r.Organization.Repositories.Edges ≠ [])
    (hleft : ReposNotExhausted 0 rs)
    (hserve : ServesRepos client org s none rs s1)
    (hfail : (client.QueryRepos s1 org (repoCursorAfter none rs)).1 = Except.error e)
    (hfuel : rs.length + 1 ≤ fuel) :
    (ReposForOrg client org fuel s).outcome = Outcome.returned none ∧
    (ReposForOrg client org fuel s).queries
      = repoQueries org none rs ++ [Requestv4.repos org (repoCursorAfter none rs)] ∧
    (ReposForOrg client org fuel s).queries.length = rs.length + 1 := by
  have h := ReposForOrgLoop_fails client org e rs fuel s 0 none [] [] [] s1
    hpages hleft hserve hfail hfuel
  simp only [List.nil_append] at h
  obtain ⟨h1, _, h3⟩ := h
  have e3 : (ReposForOrg client org fuel s).queries
      = repoQueries org none rs ++ [Requestv4.repos org (repoCursorAfter none rs)] := h3
  refine ⟨h1, e3, ?_⟩
  rw [e3]
  simp [repoQueries_length]

/-- C8 at a concrete input: the listing of `"b"` on `abcServer` serves one
page of two records and fails on the second query. -/
theorem ReposForOrg_returns_nil_on_failure_witness :
    (ReposForOrg abcServer "b" 5 0).outcome = Outcome.returned none ∧
    (ReposForOrg abcServer "b" 5 0).queries
      = [Requestv4.repos "b" none, Requestv4.repos "b" (some "c1")] := by
  have h := ReposForOrg_returns_nil_on_failure abcServer "b" 5 0 1 "502 Bad Gateway" pagesB
    (by decide) (by decide) (by decide) rfl (by decide)
  exact ⟨h.1, h.2.1⟩

/-- C6 (the code departs from the claim): in the fan-out over `"a"`, `"b"`,
`"c"`, where the query for `"b"` fails and the queries for `"a"` and `"c"`
succeed, `"c"` having no repository, `v4` does not end with a map.
`ReposForOrg` returns the record of `"a"` and the nil slice for `"b"`, and
it is run for `"c"` after `"b"`; its query for `"c"` succeeds with
`totalCount` 0 and no edge, and `Edges[size-1]` panics, which ends `v4`. -/
theorem v4_fanout_panics_on_empty_organization_after_failure :
    (loadOrgsv4 abFailsCEmptyServer 3 ()).outcome = Outcome.returned ["a", "b", "c"] ∧
    (ReposForOrg abFailsCEmptyServer "a" 3 ()).outcome
      = Outcome.returned (some [mockRepo "a" 0]) ∧
    (ReposForOrg abFailsCEmptyServer "b" 3 ()).outcome = Outcome.returned none ∧
    (abFailsCEmptyServer.QueryRepos () "c" none).1 = Except.ok (repoPage "c" 0 []) ∧
    (ReposForOrg abFailsCEmptyServer "c" 3 ()).outcome = Outcome.panicked ∧
    (v4 abFailsCEmptyServer allConf 3 ()).outcome = Outcome.panicked ∧
    (v4 abFailsCEmptyServer allConf 3 ()).queries
      = [Requestv4.orgs none, Requestv4.repos "a" none, Requestv4.repos "b" none,
         Requestv4.repos "c" none] := by
  refine ⟨by decide, by decide, by decide, by decide, by decide, by decide, by decide⟩

end Crawler
